import Mathlib

set_option maxRecDepth 200000

/-
Verification development for the phishing-cue detection and Nazario census
pipeline (src/cues.py, src/nazario.py, src/nazario_census.py, src/images.py).
Texts are modelled as Lean strings (lists of characters); Python regular
expression matching over the fixed patterns used by the code is embedded as
explicit character scanners; machine-word arithmetic in the SHA-1 content
hash is Nat arithmetic reduced modulo 2^32.  The ASCII fragment of Python
case folding and whitespace is modelled explicitly; all corpus data handled
by the claims is ASCII.
-/

/-- Python regex word character class, ASCII fragment: [a-zA-Z0-9_]. -/
def isWordChar (c : Char) : Bool :=
  decide ((97 ≤ c.toNat ∧ c.toNat ≤ 122) ∨ (65 ≤ c.toNat ∧ c.toNat ≤ 90) ∨
    (48 ≤ c.toNat ∧ c.toNat ≤ 57) ∨ c = '_')

/-- ASCII lower casing, as applied by str.lower and re.IGNORECASE on ASCII. -/
def asciiLower (c : Char) : Char :=
  if 65 ≤ c.toNat ∧ c.toNat ≤ 90 then Char.ofNat (c.toNat + 32) else c

/-- Python regex whitespace class \s, ASCII fragment. -/
def isPySpace (c : Char) : Bool :=
  decide (c = ' ' ∨ c = '\t' ∨ c = '\n' ∨ c = '\r' ∨ c.toNat = 11 ∨ c.toNat = 12)

/-- Characters kept by the normalizer regex [a-z0-9]. -/
def isLowerAlnum (c : Char) : Bool :=
  decide ((97 ≤ c.toNat ∧ c.toNat ≤ 122) ∨ (48 ≤ c.toNat ∧ c.toNat ≤ 57))

/-- Decimal digit test, as used by str.isdigit on ASCII. -/
def isAsciiDigit (c : Char) : Bool :=
  decide (48 ≤ c.toNat ∧ c.toNat ≤ 57)

/-- Word-character test through an optional character; out of range counts
as a non-word position, matching how \b treats the ends of the string. -/
def isWordOpt : Option Char → Bool
  | none => false
  | some c => isWordChar c

/-- Case-insensitive literal comparison of a pattern against the front of a
text, the semantics of a re.escape literal under re.IGNORECASE; returns the
remaining text on success. -/
def startsCI : List Char → List Char → Option (List Char)
  | [], t => some t
  | _ :: _, [] => none
  | p :: ps, c :: cs => if asciiLower c = asciiLower p then startsCI ps cs else none

/-- Boolean front match for a case-insensitive literal. -/
def sliceCI : List Char → List Char → Bool
  | [], _ => true
  | _ :: _, [] => false
  | p :: ps, c :: cs => (asciiLower c = asciiLower p : Bool) && sliceCI ps cs

/-- One attempted match of the compiled pattern \b phrase \b at the current
position, given the character just before the position (none at the start
of the string).  Mirrors cues.compile_patterns: word boundary, escaped
literal phrase, word boundary, case-insensitive. -/
def matchAt (phrase : List Char) (prev : Option Char) (l : List Char) : Bool :=
  (isWordOpt prev != isWordOpt l.head?) && sliceCI phrase l &&
    (isWordOpt ((l.take phrase.length).getLast?) != isWordOpt ((l.drop phrase.length).head?))

/-- Left-to-right non-overlapping scan of re.finditer over \b phrase \b:
at each position either a match is recorded and the scan resumes after it,
or the scan advances one character.  Fuel equals the text length, which is
always sufficient since every step consumes at least one character. -/
def scanAux : Nat → List Char → Option Char → List Char → Nat
  | 0, _, _, _ => 0
  | _ + 1, _, _, [] => 0
  | fuel + 1, phrase, prev, c :: cs =>
    if (!phrase.isEmpty) && matchAt phrase prev (c :: cs) then
      1 + scanAux fuel phrase (((c :: cs).take phrase.length).getLast?)
        ((c :: cs).drop phrase.length)
    else scanAux fuel phrase (some c) cs

/-- Number of non-overlapping matches of the compiled pattern for a phrase
in a text: the count accumulated by the finditer loop in cues.detect_cues. -/
def countMatches (phrase text : String) : Nat :=
  scanAux text.data.length phrase.data none text.data

/-- CUE_LEXICON from src/cues.py, in source order. -/
def CUE_LEXICON : List (String × List String) :=
  [("authority",
    ["official notice", "account review team", "security team", "compliance team",
     "verified badge", "support team", "customer service", "help center",
     "administrator", "admin", "security", "support", "service", "notice"]),
   ("urgency",
    ["urgent action required", "act now", "immediate action", "final notice",
     "expires soon", "deadline", "verify within 24 hours",
     "urgent", "immediately", "now", "today", "minutes", "hours", "24 hours"]),
   ("scarcity",
    ["only a few left", "limited availability", "limited slots", "while supplies last",
     "limited", "last chance", "only today"]),
   ("fear_loss",
    ["unusual activity detected", "unauthorised login", "unauthorized login",
     "your account is locked", "payment failed", "suspicious activity",
     "security alert", "fraud alert",
     "suspended", "suspension", "locked", "disabled", "restricted",
     "compromised", "violation", "failed", "failure", "alert", "warning"]),
   ("consistency_commitment",
    ["confirm your identity", "verify your account", "update your details",
     "complete your profile", "continue to your account",
     "confirm", "verify", "update", "continue", "proceed", "submit", "resolve",
     "login", "sign in", "reset", "password", "identity", "account"]),
   ("similarity_socialproof",
    ["people like you", "as recommended", "popular choice", "trending now",
     "recommended", "popular", "trending"]),
   ("reward_reciprocity",
    ["claim your reward", "you have won", "exclusive offer", "congratulations",
     "reward", "bonus", "voucher", "gift", "prize"]),
   ("brand_trust",
    ["amazon", "barclays", "facebook", "meta", "instagram", "mastercard", "netflix", "paypal",
     "apple", "microsoft", "google", "coinbase", "uphold", "telenet"])]

/-- cues.detect_cues: for each category of the lexicon, the mapping from
phrase to its non-overlapping match count in the text, keeping only phrases
with a positive count, in source order. -/
def detect_cues (text : String) : List (String × List (String × Nat)) :=
  CUE_LEXICON.map (fun cp =>
    (cp.1, cp.2.filterMap (fun p =>
      let c := countMatches p text
      if 0 < c then some (p, c) else none)))

/-- cues.summarize_counts: total count per category. -/
def summarize_counts (ms : List (String × List (String × Nat))) : List (String × Nat) :=
  ms.map (fun cpc => (cpc.1, cpc.2.foldl (fun a pc => a + pc.2) 0))

/-- First-match association lookup, the semantics of a Python dict lookup
for the association lists used in this development. -/
def assocFind {α : Type} [DecidableEq α] {β : Type} (k : α) : List (α × β) → Option β
  | [] => none
  | kv :: t => if kv.1 = k then some kv.2 else assocFind k t

/-- Per-phrase count reported by a detection result; a missing category or
phrase reads as zero, matching dict.get with default 0. -/
def phraseCount (res : List (String × List (String × Nat))) (cat phrase : String) : Nat :=
  match assocFind cat res with
  | some pcs => (assocFind phrase pcs).getD 0
  | none => 0

/-- Membership of a (category, phrase) pair in the lexicon, as a boolean. -/
def lexHas (cat phrase : String) : Bool :=
  CUE_LEXICON.any (fun cp => cp.1 = cat && cp.2.any (fun p => p = phrase))

/-- One character step of normalize_text: lower-case, then replace anything
outside [a-z0-9] with a space.  Replacing every such character by a space
and then collapsing runs of spaces is the same as replacing each maximal
run by one space, which is what re.sub with pattern [^a-z0-9]+ does. -/
def scrub (c : Char) : Char :=
  if isLowerAlnum (asciiLower c) then asciiLower c else ' '

/-- Collapse every run of consecutive spaces to a single space, the effect
of re.sub with pattern \s+ on a text whose only whitespace is the space. -/
def collapseSpaces : List Char → List Char
  | [] => []
  | [c] => [c]
  | a :: b :: t =>
    if a = ' ' ∧ b = ' ' then collapseSpaces (b :: t) else a :: collapseSpaces (b :: t)

/-- Python str.strip with no argument: remove whitespace from both ends. -/
def pyStrip (l : List Char) : List Char :=
  ((l.dropWhile isPySpace).reverse.dropWhile isPySpace).reverse

/-- normalize_text from src/nazario_census.py (the identical function also
appears in src/nazario.py, src/images.py and src/urlscan.py): lower-case,
replace runs outside [a-z0-9] with one space, collapse whitespace, strip. -/
def normalize_text (s : String) : String :=
  String.mk (pyStrip (collapseSpaces (s.data.map scrub)))

/-- One alternation branch of the reply marker pattern (re|fw|fwd)\s*:\s*
against an already lower-cased subject: the literal keyword, optional
whitespace, a colon, optional whitespace.  Returns the rest on success. -/
def tryMarker (kw : List Char) (l : List Char) : Option (List Char) :=
  match startsCI kw l with
  | none => none
  | some r =>
    match r.dropWhile isPySpace with
    | ':' :: r2 => some (r2.dropWhile isPySpace)
    | _ => none

/-- Removal of a single leading reply or forward marker, the re.sub with
anchored pattern (re|fw|fwd)\s*:\s* in normalize_subject: the alternation
branches are tried in source order and at most one removal happens. -/
def dropMarker (l : List Char) : List Char :=
  match tryMarker ['r', 'e'] l with
  | some r => r
  | none =>
    match tryMarker ['f', 'w'] l with
    | some r => r
    | none =>
      match tryMarker ['f', 'w', 'd'] l with
      | some r => r
      | none => l

/-- normalize_subject from src/nazario_census.py: strip, lower-case, remove
one leading reply/forward marker, collapse whitespace runs to one space. -/
def normalize_subject (subj : String) : String :=
  String.mk (collapseSpaces
    ((dropMarker ((pyStrip subj.data).map asciiLower)).map
      (fun c => if isPySpace c then ' ' else c)))

/-- A CSV record as produced by csv.DictReader: an association from column
name to an optional field value (None is represented by Option.none inside
the entry). -/
abbrev Row : Type := List (String × Option String)

/-- safe_get from src/nazario_census.py: missing key or None value reads as
the empty string. -/
def safe_get (row : Row) (key : String) : String :=
  match assocFind key row with
  | some (some v) => v
  | some none => ""
  | none => ""

/-- first_present from src/nazario_census.py: the first candidate column
whose value has non-blank content, returned unstripped; else empty. -/
def first_present (row : Row) : List String → String
  | [] => ""
  | k :: ks =>
    let v := safe_get row k
    if pyStrip v.data ≠ [] then v else first_present row ks

/-- LIKELY_SUBJECT_KEYS from src/nazario_census.py, in source order. -/
def LIKELY_SUBJECT_KEYS : List String := ["subject", "subj", "title", "headline"]

/-- LIKELY_HTML_KEYS from src/nazario_census.py, in source order. -/
def LIKELY_HTML_KEYS : List String :=
  ["sanitized_body", "body_html", "message_html", "content_html"]

/-- LIKELY_BODY_KEYS from src/nazario_census.py, in source order. -/
def LIKELY_BODY_KEYS : List String :=
  ["body_snippet", "body", "text", "message", "content", "payload",
   "description", "body_text", "email", "data"]

/-- is_email_like from src/nazario_census.py: a row with a non-blank
subject or any non-blank body-like field. -/
def is_email_like (row : Row) : Bool :=
  let subj := first_present row LIKELY_SUBJECT_KEYS
  let body_any := first_present row (LIKELY_HTML_KEYS ++ LIKELY_BODY_KEYS)
  decide (pyStrip subj.data ≠ []) || decide (pyStrip body_any.data ≠ [])

/-- Attempted match of the opening part of the RE_SCRIPTS pattern at the
head of the text: a left angle bracket, optional whitespace, the literal
script or style (case-insensitive, alternation in source order), then any
run of characters other than a right angle bracket, then that bracket.
Returns the matched keyword and the rest of the text. -/
def tryOpenTag (l : List Char) : Option (List Char × List Char) :=
  match l with
  | '<' :: r =>
    let r1 := r.dropWhile isPySpace
    let kwres :=
      match startsCI ['s', 'c', 'r', 'i', 'p', 't'] r1 with
      | some r2 => some (['s', 'c', 'r', 'i', 'p', 't'], r2)
      | none =>
        match startsCI ['s', 't', 'y', 'l', 'e'] r1 with
        | some r2 => some (['s', 't', 'y', 'l', 'e'], r2)
        | none => none
    match kwres with
    | some (kw, r2) =>
      match r2.dropWhile (fun c => c ≠ '>') with
      | '>' :: rest => some (kw, rest)
      | _ => none
    | none => none
  | _ => none

/-- Attempted match of the closing pattern of RE_SCRIPTS just after a left
angle bracket: optional whitespace, a slash, optional whitespace, the same
keyword (the backreference, case-insensitive), optional whitespace, a right
angle bracket. -/
def tryCloseAt (kw : List Char) (l : List Char) : Option (List Char) :=
  match l.dropWhile isPySpace with
  | '/' :: r2 =>
    match startsCI kw (r2.dropWhile isPySpace) with
    | some r4 =>
      match r4.dropWhile isPySpace with
      | '>' :: rest => some rest
      | _ => none
    | none => none
  | _ => none

/-- Scan for the first closing tag of the given keyword, the semantics of
the lazy gap in RE_SCRIPTS; returns the text after the closing bracket. -/
def findCloseTag (kw : List Char) : Nat → List Char → Option (List Char)
  | 0, _ => none
  | _ + 1, [] => none
  | fuel + 1, c :: cs =>
    match (if c = '<' then tryCloseAt kw cs else none) with
    | some rest => some rest
    | none => findCloseTag kw fuel cs

/-- RE_SCRIPTS substitution from src/nazario_census.py: every script or
style block, from its opening tag through the nearest matching closing tag,
is replaced by one space; an opening tag without a closing tag is left in
place, as the regex then fails at that position. -/
def stripScriptBlocks : Nat → List Char → List Char
  | 0, l => l
  | _ + 1, [] => []
  | fuel + 1, c :: cs =>
    match tryOpenTag (c :: cs) with
    | some (kw, afterOpen) =>
      match findCloseTag kw afterOpen.length afterOpen with
      | some rest => ' ' :: stripScriptBlocks fuel rest
      | none => c :: stripScriptBlocks fuel cs
    | none => c :: stripScriptBlocks fuel cs

/-- RE_TAGS substitution: every maximal group of a left angle bracket, at
least one character other than a right angle bracket, and a right angle
bracket, is replaced by one space. -/
def stripTags : Nat → List Char → List Char
  | 0, l => l
  | _ + 1, [] => []
  | fuel + 1, c :: cs =>
    if c = '<' then
      match cs.dropWhile (fun x => x ≠ '>'), cs.head? with
      | '>' :: rest, some h =>
        if h ≠ '>' then ' ' :: stripTags fuel rest else c :: stripTags fuel cs
      | _, _ => c :: stripTags fuel cs
    else c :: stripTags fuel cs

/-- html_to_text from src/nazario_census.py (the identical function also
appears in src/nazario.py): strip script and style blocks, strip remaining
tags, collapse whitespace runs to single spaces, strip the ends; empty
input yields the empty string. -/
def html_to_text (html : String) : String :=
  if html.data = [] then ""
  else
    let noScripts := stripScriptBlocks html.data.length html.data
    let noTags := stripTags noScripts.length noScripts
    String.mk (pyStrip (collapseSpaces (noTags.map (fun c => if isPySpace c then ' ' else c))))

/-- UTF-8 encoding of one character, as str.encode produces it. -/
def utf8Char (c : Char) : List Nat :=
  let n := c.toNat
  if n < 128 then [n]
  else if n < 2048 then [192 + n / 64, 128 + n % 64]
  else if n < 65536 then [224 + n / 4096, 128 + n / 64 % 64, 128 + n % 64]
  else [240 + n / 262144, 128 + n / 4096 % 64, 128 + n / 64 % 64, 128 + n % 64]

/-- UTF-8 encoding of a text as a byte list. -/
def utf8Encode (l : List Char) : List Nat :=
  l.foldr (fun c acc => utf8Char c ++ acc) []

/-- Left rotation of a 32-bit word held as a Nat below 2^32. -/
def rotl (k n : Nat) : Nat :=
  ((n <<< k) % 4294967296) + (n >>> (32 - k))

/-- Big-endian byte rendering of a Nat on the given number of bytes. -/
def beBytes : Nat → Nat → List Nat
  | 0, _ => []
  | k + 1, n => beBytes k (n >>> 8) ++ [n % 256]

/-- Group a 64-byte block into sixteen big-endian 32-bit words. -/
def chunkWords : List Nat → List Nat
  | b0 :: b1 :: b2 :: b3 :: rest => (b0 * 16777216 + b1 * 65536 + b2 * 256 + b3) :: chunkWords rest
  | _ => []

/-- SHA-1 message schedule extension: append the given number of words,
each the left rotation by one of the exclusive or of the words three,
eight, fourteen and sixteen places back. -/
def extendWords : Nat → List Nat → List Nat
  | 0, ws => ws
  | k + 1, ws =>
    let n := ws.length
    let w := rotl 1 (Nat.xor (Nat.xor (ws.getD (n - 3) 0) (ws.getD (n - 8) 0))
      (Nat.xor (ws.getD (n - 14) 0) (ws.getD (n - 16) 0)))
    extendWords k (ws ++ [w])

/-- One SHA-1 round on the five-word state. -/
def sha1Round (i : Nat) (st : Nat × Nat × Nat × Nat × Nat) (w : Nat) :
    Nat × Nat × Nat × Nat × Nat :=
  let a := st.1
  let b := st.2.1
  let c := st.2.2.1
  let d := st.2.2.2.1
  let e := st.2.2.2.2
  let f :=
    if i < 20 then Nat.lor (Nat.land b c) (Nat.land (Nat.xor b 4294967295) d)
    else if i < 40 then Nat.xor (Nat.xor b c) d
    else if i < 60 then Nat.lor (Nat.lor (Nat.land b c) (Nat.land b d)) (Nat.land c d)
    else Nat.xor (Nat.xor b c) d
  let k :=
    if i < 20 then 1518500249
    else if i < 40 then 1859775393
    else if i < 60 then 2400959708
    else 3395469782
  let temp := (rotl 5 a + f + e + k + w) % 4294967296
  (temp, a, rotl 30 b, c, d)

/-- SHA-1 compression of one 64-byte block into the running state. -/
def processBlock (h : Nat × Nat × Nat × Nat × Nat) (block : List Nat) :
    Nat × Nat × Nat × Nat × Nat :=
  let ws := extendWords 64 (chunkWords block)
  let r := (List.zip (List.range 80) ws).foldl (fun st iw => sha1Round iw.1 st iw.2) h
  ((h.1 + r.1) % 4294967296, (h.2.1 + r.2.1) % 4294967296,
   (h.2.2.1 + r.2.2.1) % 4294967296, (h.2.2.2.1 + r.2.2.2.1) % 4294967296,
   (h.2.2.2.2 + r.2.2.2.2) % 4294967296)

/-- SHA-1 message padding: a 128 byte, zeros to 56 modulo 64, then the bit
length on eight big-endian bytes. -/
def padBytes (msg : List Nat) : List Nat :=
  msg ++ 128 :: List.replicate ((119 - msg.length % 64) % 64) 0 ++ beBytes 8 (msg.length * 8)

/-- Split a padded message into 64-byte blocks. -/
def toBlocks : Nat → List Nat → List (List Nat)
  | 0, _ => []
  | _ + 1, [] => []
  | fuel + 1, l => l.take 64 :: toBlocks fuel (l.drop 64)

/-- SHA-1 digest of a byte list as the five-word final state. -/
def sha1Digest (msg : List Nat) : Nat × Nat × Nat × Nat × Nat :=
  let padded := padBytes msg
  (toBlocks padded.length padded).foldl processBlock
    (1732584193, 4023233417, 2562383102, 271733878, 3285377520)

/-- Lower-case hexadecimal digit. -/
def hexDigit (n : Nat) : Char :=
  if n < 10 then Char.ofNat (48 + n) else Char.ofNat (87 + n)

/-- Eight-digit hexadecimal rendering of a 32-bit word. -/
def hexWord (n : Nat) : List Char :=
  [hexDigit (n >>> 28 % 16), hexDigit (n >>> 24 % 16), hexDigit (n >>> 20 % 16),
   hexDigit (n >>> 16 % 16), hexDigit (n >>> 12 % 16), hexDigit (n >>> 8 % 16),
   hexDigit (n >>> 4 % 16), hexDigit (n % 16)]

/-- hashlib.sha1 hexdigest of a byte list: forty hexadecimal characters. -/
def sha1Hex (msg : List Nat) : List Char :=
  hexWord (sha1Digest msg).1 ++ hexWord (sha1Digest msg).2.1 ++
    hexWord (sha1Digest msg).2.2.1 ++ hexWord (sha1Digest msg).2.2.2.1 ++
    hexWord (sha1Digest msg).2.2.2.2

/-- MIN_CONTENT_CHARS from src/nazario_census.py. -/
def MIN_CONTENT_CHARS : Nat := 5

/-- MAX_EXAMPLES_PER_SIG from src/nazario_census.py. -/
def MAX_EXAMPLES_PER_SIG : Nat := 3

/-- YEAR_MIN from src/nazario_census.py. -/
def YEAR_MIN : Nat := 2005

/-- YEAR_MAX from src/nazario_census.py. -/
def YEAR_MAX : Nat := 2024

/-- The from_domain component of build_signature: the field lower-cased and
stripped. -/
def from_domain_of (row : Row) : String :=
  String.mk (pyStrip ((safe_get row "from_domain").data.map asciiLower))

/-- The content selection of build_signature: the HTML-derived plain text
when an HTML-like field is non-blank, else the first plain body field. -/
def selected_content (row : Row) : String :=
  let body_html := first_present row LIKELY_HTML_KEYS
  if pyStrip body_html.data ≠ [] then html_to_text body_html
  else first_present row LIKELY_BODY_KEYS

/-- The content component of build_signature: the empty-content sentinel
when the normalized content is shorter than MIN_CONTENT_CHARS, else the
SHA-1 hexdigest of the UTF-8 encoded normalized content. -/
def content_sig_of (content : String) : String :=
  let cont_norm := normalize_text content
  if cont_norm.data.length < MIN_CONTENT_CHARS then ""
  else String.mk (sha1Hex (utf8Encode cont_norm.data))

/-- build_signature from src/nazario_census.py: the deduplication key
(from_domain, normalized subject, content signature). -/
def build_signature (row : Row) : String × String × String :=
  (from_domain_of row,
   normalize_subject (first_present row LIKELY_SUBJECT_KEYS),
   content_sig_of (selected_content row))

/-- Attempted match of the pattern \b(19|20)\d\d\b at the current position,
given the character before the position; returns the four digits. -/
def yearMatchAt (prev : Option Char) (l : List Char) : Option (List Char) :=
  match l with
  | c1 :: c2 :: c3 :: c4 :: rest =>
    if (isWordOpt prev != isWordChar c1) &&
        ((c1 = '1' ∧ c2 = '9') ∨ (c1 = '2' ∧ c2 = '0') : Bool) &&
        isAsciiDigit c3 && isAsciiDigit c4 &&
        (isWordChar c4 != isWordOpt rest.head?) then
      some [c1, c2, c3, c4]
    else none
  | _ => none

/-- Left-to-right search for the first match of \b(19|20)\d\d\b, the
semantics of YEAR_RX.search. -/
def yearSearchAux : Nat → Option Char → List Char → Option (List Char)
  | 0, _, _ => none
  | _ + 1, _, [] => none
  | fuel + 1, prev, c :: cs =>
    match yearMatchAt prev (c :: cs) with
    | some y => some y
    | none => yearSearchAux fuel (some c) cs

/-- YEAR_RX.search over a string: the first year-shaped token, if any. -/
def yearSearch (s : String) : Option String :=
  match yearSearchAux s.data.length none s.data with
  | some y => some (String.mk y)
  | none => none

/-- Decimal reading of a digit string. -/
def strToNat (l : List Char) : Nat :=
  l.foldl (fun a c => a * 10 + (c.toNat - 48)) 0

/-- _valid_year from src/nazario_census.py: a non-empty four-digit string
whose value lies in [YEAR_MIN, YEAR_MAX]. -/
def valid_year (y : String) : Bool :=
  decide (y.data ≠ []) && y.data.all isAsciiDigit && decide (y.data.length = 4) &&
    decide (YEAR_MIN ≤ strToNat y.data ∧ strToNat y.data ≤ YEAR_MAX)

/-- extract_year_from_text from src/nazario_census.py: the first
year-shaped token of the text when it is valid, else empty. -/
def extract_year_from_text (s : String) : String :=
  if s.data = [] then ""
  else
    match yearSearch s with
    | none => ""
    | some y => if valid_year y then y else ""

/-- Whether the text contains, at any position, a year-shaped token whose
value lies in the valid range; used to state what the specification reads
as containment, as opposed to the first-match rule the code applies. -/
def hasYearTokenInRangeAux : Nat → Option Char → List Char → Bool
  | 0, _, _ => false
  | _ + 1, _, [] => false
  | fuel + 1, prev, c :: cs =>
    match yearMatchAt prev (c :: cs) with
    | some y =>
      if valid_year (String.mk y) then true else hasYearTokenInRangeAux fuel (some c) cs
    | none => hasYearTokenInRangeAux fuel (some c) cs

/-- Boolean containment of an in-range year token anywhere in the text. -/
def hasYearTokenInRange (s : String) : Bool :=
  hasYearTokenInRangeAux s.data.length none s.data

/-- The year audit counters of src/nazario_census.py. -/
structure YearAudit where
  date_valid : Nat
  fallback_file : Nat
  unknown : Nat
  date_out_of_range : Nat
deriving DecidableEq, Repr

/-- The all-zero audit, as initialized in main. -/
def zeroAudit : YearAudit := ⟨0, 0, 0, 0⟩

/-- guess_year_with_audit from src/nazario_census.py, with the mutation of
the audit dictionary modelled by returning the updated audit: try the date
field first; on failure optionally count an out-of-range date year, then
fall back to the filename, else count the row as unknown. -/
def guess_year_with_audit (row : Row) (filename : String) (audit : YearAudit) :
    String × YearAudit :=
  let raw_date := safe_get row "date"
  let y_date := extract_year_from_text raw_date
  if valid_year y_date then
    (y_date, { audit with date_valid := audit.date_valid + 1 })
  else
    let audit2 :=
      if decide (raw_date.data ≠ []) &&
          (match yearSearch raw_date with
           | some y => !valid_year y
           | none => false) then
        { audit with date_out_of_range := audit.date_out_of_range + 1 }
      else audit
    let y_file := extract_year_from_text filename
    if valid_year y_file then
      (y_file, { audit2 with fallback_file := audit2.fallback_file + 1 })
    else
      ("", { audit2 with unknown := audit2.unknown + 1 })

/-- Counter increment with dict insertion-order semantics: bump the key in
place if present, else append it with count one. -/
def bumpCount {α : Type} [DecidableEq α] : List (α × Nat) → α → List (α × Nat)
  | [], k => [(k, 1)]
  | kv :: t, k => if kv.1 = k then (kv.1, kv.2 + 1) :: t else kv :: bumpCount t k

/-- A deduplication signature. -/
abbrev Sig : Type := String × String × String

/-- Bounded example retention: append a (filename, subject) example for the
signature while it holds fewer than MAX_EXAMPLES_PER_SIG examples. -/
def addExample : List (Sig × List (String × String)) → Sig → String × String →
    List (Sig × List (String × String))
  | [], k, ex => [(k, [ex])]
  | kv :: t, k, ex =>
    if kv.1 = k then
      if kv.2.length < MAX_EXAMPLES_PER_SIG then (kv.1, kv.2 ++ [ex]) :: t else kv :: t
    else kv :: addExample t k ex

/-- Earliest-year map update: record the year for an unseen signature, and
replace a recorded year by a lexicographically smaller one. -/
def setFirstYear : List (Sig × String) → Sig → String → List (Sig × String)
  | [], k, yr => [(k, yr)]
  | kv :: t, k, yr =>
    if kv.1 = k then (if yr < kv.2 then (kv.1, yr) :: t else kv :: t)
    else kv :: setFirstYear t k yr

/-- The aggregate state of the census main loop in src/nazario_census.py. -/
structure CensusState where
  total_rows : Nat
  email_like : Nat
  sig_counter : List (Sig × Nat)
  sig_examples : List (Sig × List (String × String))
  sig_first_year : List (Sig × String)
  per_year_raw : List (String × Nat)
  audit : YearAudit

/-- The state at the start of the corpus pass. -/
def initState : CensusState := ⟨0, 0, [], [], [], [], zeroAudit⟩

/-- One iteration of the census row loop: count the row, skip it unless it
is email-like, then count its signature, retain a bounded example, resolve
its year with the audit, and tally the resolved year. -/
def processRow (st : CensusState) (filename : String) (row : Row) : CensusState :=
  let st1 := { st with total_rows := st.total_rows + 1 }
  if !is_email_like row then st1
  else
    let st2 := { st1 with email_like := st1.email_like + 1 }
    let sig := build_signature row
    let st3 := { st2 with sig_counter := bumpCount st2.sig_counter sig }
    let subj := first_present row LIKELY_SUBJECT_KEYS
    let st4 := { st3 with
      sig_examples := addExample st3.sig_examples sig (filename, String.mk (subj.data.take 200)) }
    let yrAudit := guess_year_with_audit row filename st4.audit
    let st5 := { st4 with audit := yrAudit.2 }
    if yrAudit.1.data ≠ [] then
      { st5 with per_year_raw := bumpCount st5.per_year_raw yrAudit.1,
                 sig_first_year := setFirstYear st5.sig_first_year sig yrAudit.1 }
    else st5

/-- A full corpus pass over (filename, row) pairs, as main performs over
every row of every CSV file. -/
def processRows (corpus : List (String × Row)) : CensusState :=
  corpus.foldl (fun st fr => processRow st fr.1 fr.2) initState

/-- unique_emails from main: the number of distinct signatures seen. -/
def unique_emails (st : CensusState) : Nat := st.sig_counter.length

/-- duplicates from main: max(0, email-like rows minus unique emails). -/
def duplicates (st : CensusState) : Int :=
  max 0 ((st.email_like : Int) - (unique_emails st : Int))

/-- dup_rate from main: duplicates over email-like rows times one hundred,
and zero when no email-like row was seen; the Python float arithmetic is
modelled exactly over the rationals. -/
def dup_rate (st : CensusState) : ℚ :=
  if st.email_like = 0 then 0 else ((duplicates st : ℚ) / (st.email_like : ℚ)) * 100

/-- Uppercase ASCII letter test, the class [A-Z]. -/
def isUpperAZ (c : Char) : Bool := decide (65 ≤ c.toNat ∧ c.toNat ≤ 90)

/-- Non-overlapping count of RE_ALL_CAPS matches \b[A-Z]{2,}\b: maximal
uppercase runs of length at least two whose neighbours are non-word
positions.  Positions inside a run can never match, since the character
before them is a word character, so the scan advances over whole runs. -/
def allCapsAux : Nat → Option Char → List Char → Nat
  | 0, _, _ => 0
  | _ + 1, _, [] => 0
  | fuel + 1, prev, c :: cs =>
    if isUpperAZ c && !isWordOpt prev then
      let run := (c :: cs).takeWhile isUpperAZ
      let rest := (c :: cs).drop run.length
      if 2 ≤ run.length && !isWordOpt rest.head? then 1 + allCapsAux fuel run.getLast? rest
      else allCapsAux fuel run.getLast? rest
    else allCapsAux fuel (some c) cs

/-- RE_ALL_CAPS match count over a string. -/
def allCapsCount (s : String) : Nat := allCapsAux s.data.length none s.data

/-- RE_EXCLAM match count !+: the number of maximal runs of exclamation
marks, tracked by whether the scan is inside a run. -/
def exclamAux : Bool → List Char → Nat
  | _, [] => 0
  | inRun, c :: cs =>
    if c = '!' then (if inRun then 0 else 1) + exclamAux true cs else exclamAux false cs

/-- RE_EXCLAM match count over a string. -/
def exclamCount (s : String) : Nat := exclamAux false s.data

/-- RE_MONEY match count: occurrences of the currency symbols. -/
def moneyCount (s : String) : Nat :=
  s.data.countP (fun c => decide (c = '£' ∨ c = '$' ∨ c = '€'))

/-- Non-overlapping count of RE_LINK matches (https?://|www\.), with the
greedy optional s tried first, case-insensitively. -/
def linkAux : Nat → List Char → Nat
  | 0, _ => 0
  | _ + 1, [] => 0
  | fuel + 1, c :: cs =>
    match startsCI ['h', 't', 't', 'p', 's', ':', '/', '/'] (c :: cs) with
    | some rest => 1 + linkAux fuel rest
    | none =>
      match startsCI ['h', 't', 't', 'p', ':', '/', '/'] (c :: cs) with
      | some rest => 1 + linkAux fuel rest
      | none =>
        match startsCI ['w', 'w', 'w', '.'] (c :: cs) with
        | some rest => 1 + linkAux fuel rest
        | none => linkAux fuel cs

/-- RE_LINK match count over a string. -/
def linkCount (s : String) : Nat := linkAux s.data.length s.data

/-- The four surface heuristics returned beside the cue totals. -/
structure ExtraCounts where
  all_caps_words : Nat
  exclamations : Nat
  money_symbols : Nat
  links : Nat
deriving DecidableEq, Repr

/-- The extras dictionary computed over a text. -/
def extrasOf (t : String) : ExtraCounts :=
  ⟨allCapsCount t, exclamCount t, moneyCount t, linkCount t⟩

/-- One attempted match of DEOBF_HXXP \bhxxps?:// at the current position:
word boundary, then the literal with the greedy optional s tried first,
case-insensitively; reports whether the s branch matched. -/
def tryHxxp (prev : Option Char) (l : List Char) : Option (Bool × List Char) :=
  if isWordOpt prev != isWordOpt l.head? then
    match startsCI ['h', 'x', 'x', 'p', 's', ':', '/', '/'] l with
    | some rest => some (true, rest)
    | none =>
      match startsCI ['h', 'x', 'x', 'p', ':', '/', '/'] l with
      | some rest => some (false, rest)
      | none => none
  else none

/-- DEOBF_HXXP substitution: every obfuscated scheme is rewritten to https
or http according to whether the matched text carried the s. -/
def deobfHxxpAux : Nat → Option Char → List Char → List Char
  | 0, _, l => l
  | _ + 1, _, [] => []
  | fuel + 1, prev, c :: cs =>
    match tryHxxp prev (c :: cs) with
    | some (withS, rest) =>
      (if withS then ['h', 't', 't', 'p', 's', ':', '/', '/']
       else ['h', 't', 't', 'p', ':', '/', '/']) ++ deobfHxxpAux fuel (some '/') rest
    | none => c :: deobfHxxpAux fuel (some c) cs

/-- DEOBF_DOT substitution: every bracketed dot becomes a plain dot. -/
def deobfDot : List Char → List Char
  | '[' :: '.' :: ']' :: rest => '.' :: deobfDot rest
  | c :: rest => c :: deobfDot rest
  | [] => []

/-- deobfuscate_iocs from src/nazario.py. -/
def deobfuscate_iocs (s : String) : String :=
  if s.data = [] then ""
  else String.mk (deobfDot (deobfHxxpAux s.data.length none s.data))

/-- detect_with_extras from src/nazario.py: None is replaced by the empty
string, the text is deobfuscated, cues are detected in a single pass over
that text, and the totals are returned beside the extras computed over the
same text. -/
def nazario_detect_with_extras (text : Option String) : List (String × Nat) × ExtraCounts :=
  let t := deobfuscate_iocs (text.getD "")
  (summarize_counts (detect_cues t), extrasOf t)

/-- Python dict get-add-store: add to the key in place if present, else
append it. -/
def dictAdd : List (String × Nat) → String → Nat → List (String × Nat)
  | [], k, v => [(k, v)]
  | kv :: t, k, v => if kv.1 = k then (kv.1, kv.2 + v) :: t else kv :: dictAdd t k v

/-- Ensure a category key exists in the merged mapping, appending an empty
inner mapping if it is missing. -/
def ensureCat : List (String × List (String × Nat)) → String →
    List (String × List (String × Nat))
  | [], cat => [(cat, [])]
  | kv :: t, cat => if kv.1 = cat then kv :: t else kv :: ensureCat t cat

/-- Add a phrase count into one category of the merged mapping. -/
def addToCat : List (String × List (String × Nat)) → String → String → Nat →
    List (String × List (String × Nat))
  | [], _, _, _ => []
  | kv :: t, cat, phrase, count =>
    if kv.1 = cat then (kv.1, dictAdd kv.2 phrase count) :: t
    else kv :: addToCat t cat phrase count

/-- The merge loop of detect_with_extras in src/images.py: starting from a
copy of the raw-pass result, add every normalized-pass phrase count into
its category. -/
def merge_matches (raw norm : List (String × List (String × Nat))) :
    List (String × List (String × Nat)) :=
  norm.foldl
    (fun acc cp => cp.2.foldl (fun a pc => addToCat a cp.1 pc.1 pc.2) (ensureCat acc cp.1))
    raw

/-- detect_with_extras from src/images.py: None is replaced by the empty
string, cues are detected over the raw text and over the normalized text,
the per-phrase counts of the two passes are merged by summation, and the
merged counts are reduced to category totals beside the extras computed
over the raw text. -/
def images_detect_with_extras (text : Option String) : List (String × Nat) × ExtraCounts :=
  let t := text.getD ""
  (summarize_counts (merge_matches (detect_cues t) (detect_cues (normalize_text t))),
   extrasOf t)

/-- A record whose date field holds an out-of-range year ahead of an
in-range one; used against claim C2. -/
def c2Row : Row := [("date", some "1999 2010"), ("subject", some "hi")]

/-- A record whose date field holds only an out-of-range year; used against
claim C3. -/
def c3Row : Row := [("date", some "1999"), ("subject", some "hi")]

/-- A one-file corpus holding only the record above. -/
def c3Corpus : List (String × Row) := [("phish-2015.csv", c3Row)]

/-- A record with a valid date year and a filename with a different valid
year, for the year-precedence witness. -/
def c2WitnessRow : Row := [("date", some "July 2013"), ("subject", some "hi")]

/-- HTML-bodied record for the signature stability witness. -/
def c6RowA : Row :=
  [("from_domain", some "Example.com"), ("subject", some "Re: Pay NOW"),
   ("sanitized_body", some "<p>Hello   WORLD!</p>")]

/-- Plain-bodied record equivalent to the record above. -/
def c6RowB : Row :=
  [("from_domain", some " example.COM "), ("subject", some "FWD: pay now"),
   ("body", some "hello, world")]

/-- A record whose normalized body is shorter than five characters. -/
def c7Row : Row := [("subject", some "x"), ("body", some "hi!")]

/-- A record with a long body, for the sentinel separation witness. -/
def c7RowLong : Row := [("subject", some "x"), ("body", some "hello world")]

/-- A record whose HTML field strips to nothing while a long plain body is
present; used for claim C10. -/
def c10Row : Row :=
  [("subject", some "x"), ("sanitized_body", some "<div><br></div>"),
   ("body", some "a long ignored plain text body here")]

/-- A three-row corpus with two records sharing one signature, for the
duplicate accounting witness. -/
def c5Corpus : List (String × Row) :=
  [("phish-2015.csv", c6RowA), ("phish-2015.csv", c6RowB), ("other.csv", c7Row)]

/-- The sum of the three strategy counters of the year audit, excluding the
supplementary out-of-range counter. -/
def sum3 (a : YearAudit) : Nat := a.date_valid + a.fallback_file + a.unknown

/-- The all-zero category totals, one entry per lexicon category. -/
def zeroTotals : List (String × Nat) := CUE_LEXICON.map (fun cp => (cp.1, 0))

/-- No two adjacent characters of the list are both spaces. -/
def NoDub (l : List Char) : Prop :=
  List.Chain' (fun a b => ¬(a = ' ' ∧ b = ' ')) l

/-
Theorems.  Every claim of the specification audit is settled below; helper
lemmas shared between proofs come first.
-/

/-- SHA-1 sanity check against the FIPS 180 test vector for abc. -/
theorem sha1_test_vector :
    String.mk (sha1Hex (utf8Encode "abc".data)) = "a9993e364706816aba3e25717850c26c9cd0d89d" := by
  decide

/-- A word of hexadecimal rendering has exactly eight characters. -/
theorem hexWord_length (n : Nat) : (hexWord n).length = 8 := by
  simp [hexWord]

/-- A SHA-1 hexdigest has exactly forty characters. -/
theorem sha1Hex_length (msg : List Nat) : (sha1Hex msg).length = 40 := by
  simp [sha1Hex, hexWord_length]

/-- C9: every compiled phrase matcher is case-insensitive, literal and
whole-word: the lexicon phrase now has no match inside snowman, exactly one
match in the text act now with a trailing dot, and the same count on the
upper-cased text; detect_cues reports the same counts. -/
theorem whole_word_case_insensitive_matching :
    lexHas "urgency" "now" = true ∧
    countMatches "now" "snowman" = 0 ∧
    countMatches "now" "act now." = 1 ∧
    countMatches "now" "ACT NOW." = 1 ∧
    phraseCount (detect_cues "snowman") "urgency" "now" = 0 ∧
    phraseCount (detect_cues "act now.") "urgency" "now" = 1 := by
  decide

/-- C4: the detector is total over optional input: applied to None or to
the empty string, detection yields all-zero per-category totals rather
than an error. -/
theorem detector_total_on_empty :
    (nazario_detect_with_extras none).1 = zeroTotals ∧
    (nazario_detect_with_extras (some "")).1 = zeroTotals ∧
    summarize_counts (detect_cues "") = zeroTotals ∧
    (images_detect_with_extras none).1 = zeroTotals := by
  decide

/-- C1 counterexample: on the text ACT NOW with two exclamation marks, the
per-phrase count reported by detect_cues for the urgency phrase now is the
single-pass count one, not the raw-plus-normalized sum two; accordingly the
detect_with_extras of src/nazario.py reports the single-pass urgency total
two where the dual-pass merge of src/images.py reports four. -/
theorem detect_cues_not_dual_pass_cex :
    phraseCount (detect_cues "ACT NOW!!") "urgency" "now" = 1 ∧
    countMatches "now" "ACT NOW!!" + countMatches "now" (normalize_text "ACT NOW!!") = 2 ∧
    phraseCount (detect_cues "ACT NOW!!") "urgency" "now" ≠
      countMatches "now" "ACT NOW!!" + countMatches "now" (normalize_text "ACT NOW!!") ∧
    assocFind "urgency" (nazario_detect_with_extras (some "ACT NOW!!")).1 = some 2 ∧
    assocFind "urgency" (images_detect_with_extras (some "ACT NOW!!")).1 = some 4 := by
  decide

/-- C2 counterexample: the date field 1999 2010 contains the in-range year
token 2010, yet guess_year_with_audit validates only the first year-shaped
token 1999, rejects it, and falls back to the filename year 2015 without
incrementing date_valid. -/
theorem year_resolver_first_token_cex :
    hasYearTokenInRange "1999 2010" = true ∧
    safe_get c2Row "date" = "1999 2010" ∧
    guess_year_with_audit c2Row "phish-2015.csv" zeroAudit = ("2015", ⟨0, 1, 0, 1⟩) ∧
    (guess_year_with_audit c2Row "phish-2015.csv" zeroAudit).2.date_valid = 0 := by
  decide

/-- C3 counterexample: processing a single email-like row whose date holds
an out-of-range year while the filename holds a valid year increments both
date_out_of_range and fallback_file, so the four audit counters sum to two
while only one email-like row was processed: the four counters are neither
mutually exclusive nor summing to the row count. -/
theorem year_audit_four_counters_cex :
    (processRows c3Corpus).email_like = 1 ∧
    (processRows c3Corpus).audit = ⟨0, 1, 0, 1⟩ ∧
    (processRows c3Corpus).audit.date_valid + (processRows c3Corpus).audit.fallback_file +
        (processRows c3Corpus).audit.unknown + (processRows c3Corpus).audit.date_out_of_range ≠
      (processRows c3Corpus).email_like := by
  decide

/-- C6: two records whose from-domains agree after lower-casing and
stripping, whose subjects agree after subject normalization (which removes
one leading reply or forward marker), and whose selected body contents
agree after text normalization (which quotients by whitespace, casing and
punctuation, with HTML already reduced to its text) receive equal
signatures from build_signature. -/
theorem signature_stability (r1 r2 : Row)
    (hd : from_domain_of r1 = from_domain_of r2)
    (hs : normalize_subject (first_present r1 LIKELY_SUBJECT_KEYS) =
      normalize_subject (first_present r2 LIKELY_SUBJECT_KEYS))
    (hc : normalize_text (selected_content r1) = normalize_text (selected_content r2)) :
    build_signature r1 = build_signature r2 := by
  simp only [build_signature, content_sig_of]
  rw [hd, hs, hc]

/-- Witness for C6 at two concrete records: an HTML body with differing
whitespace, casing and punctuation against an equivalent plain body, with
differing reply markers on the subject and differing casing on the domain. -/
theorem signature_stability_witness :
    from_domain_of c6RowA = from_domain_of c6RowB ∧
    normalize_subject (first_present c6RowA LIKELY_SUBJECT_KEYS) =
      normalize_subject (first_present c6RowB LIKELY_SUBJECT_KEYS) ∧
    normalize_text (selected_content c6RowA) = normalize_text (selected_content c6RowB) ∧
    build_signature c6RowA = build_signature c6RowB :=
  ⟨by decide, by decide, by decide,
   signature_stability c6RowA c6RowB (by decide) (by decide) (by decide)⟩

/-- C7: a record whose normalized selected content is shorter than
MIN_CONTENT_CHARS receives the empty-string sentinel as the content
component of its signature, and a record at or above the threshold receives
the forty-character SHA-1 hexdigest, which is never equal to the sentinel. -/
theorem short_body_sentinel (row : Row) :
    ((normalize_text (selected_content row)).data.length < MIN_CONTENT_CHARS →
      (build_signature row).2.2 = "") ∧
    (MIN_CONTENT_CHARS ≤ (normalize_text (selected_content row)).data.length →
      (build_signature row).2.2 =
        String.mk (sha1Hex (utf8Encode (normalize_text (selected_content row)).data)) ∧
      (build_signature row).2.2 ≠ "") := by
  constructor
  · intro h
    simp only [build_signature, content_sig_of]
    rw [if_pos h]
  · intro h
    simp only [build_signature, content_sig_of]
    rw [if_neg (Nat.not_lt.mpr h)]
    refine ⟨rfl, fun he => ?_⟩
    have hd := congrArg String.data he
    simp only [String.data] at hd
    have hl := congrArg List.length hd
    rw [sha1Hex_length] at hl
    simp at hl

/-- Witness for C7: the record with body hi and an exclamation mark gets
the sentinel, and the record with body hello world gets a non-sentinel
hash. -/
theorem short_body_sentinel_witness :
    ((normalize_text (selected_content c7Row)).data.length < MIN_CONTENT_CHARS ∧
      (build_signature c7Row).2.2 = "") ∧
    (MIN_CONTENT_CHARS ≤ (normalize_text (selected_content c7RowLong)).data.length ∧
      (build_signature c7RowLong).2.2 ≠ "") :=
  ⟨⟨by decide, (short_body_sentinel c7Row).1 (by decide)⟩,
   ⟨by decide, ((short_body_sentinel c7RowLong).2 (by decide)).2⟩⟩

/-- C10: whenever the first HTML-like field of a record is non-blank, the
signature is computed from the HTML-derived text alone and every plain
body field is ignored; in particular an HTML body whose stripped text
normalizes below the threshold yields the empty-content sentinel even
beside a long plain body. -/
theorem html_overrides_plaintext (row : Row)
    (h : pyStrip (first_present row LIKELY_HTML_KEYS).data ≠ []) :
    build_signature row =
      (from_domain_of row, normalize_subject (first_present row LIKELY_SUBJECT_KEYS),
        content_sig_of (html_to_text (first_present row LIKELY_HTML_KEYS))) ∧
    ((normalize_text (html_to_text (first_present row LIKELY_HTML_KEYS))).data.length <
        MIN_CONTENT_CHARS →
      (build_signature row).2.2 = "") := by
  have hsel : selected_content row = html_to_text (first_present row LIKELY_HTML_KEYS) := by
    simp only [selected_content]
    rw [if_pos h]
  constructor
  · simp only [build_signature, hsel]
  · intro hlen
    simp only [build_signature, content_sig_of, hsel]
    rw [if_pos hlen]

/-- Witness for C10 at a record whose HTML field is markup only while a
long plain body field is present: the content component is the sentinel. -/
theorem html_overrides_plaintext_witness :
    pyStrip (first_present c10Row LIKELY_HTML_KEYS).data ≠ [] ∧
    first_present c10Row LIKELY_BODY_KEYS = "a long ignored plain text body here" ∧
    (build_signature c10Row).2.2 = "" :=
  ⟨by decide, by decide, (html_overrides_plaintext c10Row (by decide)).2 (by decide)⟩

/-- The extractor returns either a valid year or the empty string. -/
theorem extract_valid_or_empty (s : String) :
    valid_year (extract_year_from_text s) = true ∨ extract_year_from_text s = "" := by
  unfold extract_year_from_text
  split
  · right; rfl
  · split
    · right; rfl
    · split
      · next hv => left; exact hv
      · right; rfl

/-- C2 (amended): whenever the first year-shaped token of the date field is
valid, guess_year_with_audit returns it, increments only date_valid, and
the result does not depend on the filename in any way. -/
theorem year_resolver_date_precedence (row : Row) (filename : String) (audit : YearAudit)
    (h : extract_year_from_text (safe_get row "date") ≠ "") :
    guess_year_with_audit row filename audit =
      (extract_year_from_text (safe_get row "date"),
       { audit with date_valid := audit.date_valid + 1 }) := by
  have hv : valid_year (extract_year_from_text (safe_get row "date")) = true :=
    (extract_valid_or_empty _).resolve_right h
  unfold guess_year_with_audit
  simp [hv]

/-- Witness for C2 at a record whose date resolves to 2013 while the
filename carries the different valid year 2015: the date year wins. -/
theorem year_resolver_date_precedence_witness :
    extract_year_from_text (safe_get c2WitnessRow "date") = "2013" ∧
    guess_year_with_audit c2WitnessRow "phish-2015.csv" zeroAudit =
      (extract_year_from_text (safe_get c2WitnessRow "date"),
       { zeroAudit with date_valid := zeroAudit.date_valid + 1 }) :=
  ⟨by decide,
   year_resolver_date_precedence c2WitnessRow "phish-2015.csv" zeroAudit (by decide)⟩

/-- Every call of the year resolver increments exactly one of the three
strategy counters. -/
theorem guess_three_split (row : Row) (fn : String) (a : YearAudit) :
    ((guess_year_with_audit row fn a).2.date_valid = a.date_valid + 1 ∧
     (guess_year_with_audit row fn a).2.fallback_file = a.fallback_file ∧
     (guess_year_with_audit row fn a).2.unknown = a.unknown) ∨
    ((guess_year_with_audit row fn a).2.date_valid = a.date_valid ∧
     (guess_year_with_audit row fn a).2.fallback_file = a.fallback_file + 1 ∧
     (guess_year_with_audit row fn a).2.unknown = a.unknown) ∨
    ((guess_year_with_audit row fn a).2.date_valid = a.date_valid ∧
     (guess_year_with_audit row fn a).2.fallback_file = a.fallback_file ∧
     (guess_year_with_audit row fn a).2.unknown = a.unknown + 1) := by
  unfold guess_year_with_audit
  by_cases h1 : valid_year (extract_year_from_text (safe_get row "date")) = true
  · simp [h1]
  · simp only [Bool.not_eq_true] at h1
    simp only [h1, Bool.false_eq_true, if_false]
    by_cases h2 : (decide ((safe_get row "date").data ≠ []) &&
        (match yearSearch (safe_get row "date") with
         | some y => !valid_year y
         | none => false)) = true
    · simp only [h2, if_true]
      by_cases h3 : valid_year (extract_year_from_text fn) = true
      · simp [h3]
      · simp only [Bool.not_eq_true] at h3
        simp [h3]
    · simp only [Bool.not_eq_true] at h2
      simp only [h2, Bool.false_eq_true, if_false]
      by_cases h3 : valid_year (extract_year_from_text fn) = true
      · simp [h3]
      · simp only [Bool.not_eq_true] at h3
        simp [h3]

/-- Every call of the year resolver adds exactly one to the sum of the
three strategy counters. -/
theorem guess_sum3 (row : Row) (fn : String) (a : YearAudit) :
    sum3 (guess_year_with_audit row fn a).2 = sum3 a + 1 := by
  rcases guess_three_split row fn a with ⟨h1, h2, h3⟩ | ⟨h1, h2, h3⟩ | ⟨h1, h2, h3⟩ <;>
    simp [sum3, h1, h2, h3] <;> omega

/-- One row of the census loop adds one to the sum of the three strategy
counters exactly when it adds one to the email-like count. -/
theorem processRow_sum3 (st : CensusState) (fn : String) (row : Row) :
    sum3 (processRow st fn row).audit + st.email_like =
      (processRow st fn row).email_like + sum3 st.audit := by
  unfold processRow
  cases he : is_email_like row
  · simp only [he, Bool.not_false, ite_true]
    omega
  · simp only [he, Bool.not_true, Bool.false_eq_true, if_false]
    split
    · rw [guess_sum3]
      dsimp only
      omega
    · rw [guess_sum3]
      dsimp only
      omega

/-- Folding the census row step preserves the balance between the strategy
counter sum and the email-like count. -/
theorem fold_sum3 (corpus : List (String × Row)) :
    ∀ st : CensusState,
      sum3 (corpus.foldl (fun s fr => processRow s fr.1 fr.2) st).audit + st.email_like =
        (corpus.foldl (fun s fr => processRow s fr.1 fr.2) st).email_like + sum3 st.audit := by
  induction corpus with
  | nil => intro st; simp only [List.foldl_nil]; omega
  | cons fr rest ih =>
    intro st
    have h1 := processRow_sum3 st fr.1 fr.2
    have h2 := ih (processRow st fr.1 fr.2)
    simp only [List.foldl_cons] at h2 ⊢
    omega

/-- C3 (amended): each email-like row increments exactly one of the three
strategy counters date_valid, fallback_file and unknown, and after a full
corpus pass their sum equals the number of email-like rows processed; the
fourth counter date_out_of_range is supplementary and can be incremented
beside fallback_file or unknown, so the four counters are not mutually
exclusive and need not sum to the row count. -/
theorem year_audit_three_way_partition :
    (∀ (row : Row) (fn : String) (a : YearAudit),
      ((guess_year_with_audit row fn a).2.date_valid = a.date_valid + 1 ∧
       (guess_year_with_audit row fn a).2.fallback_file = a.fallback_file ∧
       (guess_year_with_audit row fn a).2.unknown = a.unknown) ∨
      ((guess_year_with_audit row fn a).2.date_valid = a.date_valid ∧
       (guess_year_with_audit row fn a).2.fallback_file = a.fallback_file + 1 ∧
       (guess_year_with_audit row fn a).2.unknown = a.unknown) ∨
      ((guess_year_with_audit row fn a).2.date_valid = a.date_valid ∧
       (guess_year_with_audit row fn a).2.fallback_file = a.fallback_file ∧
       (guess_year_with_audit row fn a).2.unknown = a.unknown + 1)) ∧
    (∀ corpus : List (String × Row),
      sum3 (processRows corpus).audit = (processRows corpus).email_like) := by
  refine ⟨guess_three_split, fun corpus => ?_⟩
  have h := fold_sum3 corpus initState
  simpa [processRows, initState, sum3, zeroAudit] using h

/-- One bump of a counter map grows its key set by at most one entry. -/
theorem bumpCount_length {α : Type} [DecidableEq α] (m : List (α × Nat)) (k : α) :
    (bumpCount m k).length ≤ m.length + 1 := by
  induction m with
  | nil => simp [bumpCount]
  | cons kv t ih =>
    simp only [bumpCount]
    split
    · simp
    · simpa using Nat.succ_le_succ ih

/-- One census row step preserves the invariant that there are no more
distinct signatures than email-like rows. -/
theorem processRow_unique_le (st : CensusState) (fn : String) (row : Row)
    (h : st.sig_counter.length ≤ st.email_like) :
    (processRow st fn row).sig_counter.length ≤ (processRow st fn row).email_like := by
  unfold processRow
  cases he : is_email_like row
  · simpa using h
  · simp only [he, Bool.not_true, Bool.false_eq_true, if_false]
    split
    · dsimp only
      have := bumpCount_length st.sig_counter (build_signature row)
      omega
    · dsimp only
      have := bumpCount_length st.sig_counter (build_signature row)
      omega

/-- After any corpus pass there are no more distinct signatures than
email-like rows. -/
theorem fold_unique_le (corpus : List (String × Row)) :
    ∀ st : CensusState, st.sig_counter.length ≤ st.email_like →
      (corpus.foldl (fun s fr => processRow s fr.1 fr.2) st).sig_counter.length ≤
        (corpus.foldl (fun s fr => processRow s fr.1 fr.2) st).email_like := by
  induction corpus with
  | nil => intro st h; simpa using h
  | cons fr rest ih =>
    intro st h
    simp only [List.foldl_cons]
    exact ih _ (processRow_unique_le st fr.1 fr.2 h)

/-- C5: for every corpus, the census reports exactly the email-like count
minus the distinct signature count as duplicates (the clamp at zero never
engages), the duplicate rate is that difference over the email-like count
times one hundred whenever the corpus has an email-like row, and the empty
corpus reports zero counts and a zero rate. -/
theorem census_duplicate_accounting (corpus : List (String × Row)) :
    unique_emails (processRows corpus) ≤ (processRows corpus).email_like ∧
    duplicates (processRows corpus) =
      ((processRows corpus).email_like : Int) - (unique_emails (processRows corpus) : Int) ∧
    ((processRows corpus).email_like ≠ 0 →
      dup_rate (processRows corpus) =
        (((processRows corpus).email_like : ℚ) - (unique_emails (processRows corpus) : ℚ)) /
          ((processRows corpus).email_like : ℚ) * 100) ∧
    (corpus = [] → (processRows corpus).email_like = 0 ∧
      unique_emails (processRows corpus) = 0 ∧
      duplicates (processRows corpus) = 0 ∧ dup_rate (processRows corpus) = 0) := by
  have hle : unique_emails (processRows corpus) ≤ (processRows corpus).email_like :=
    fold_unique_le corpus initState (by simp [initState])
  have hdup : duplicates (processRows corpus) =
      ((processRows corpus).email_like : Int) - (unique_emails (processRows corpus) : Int) := by
    unfold duplicates
    rw [max_eq_right]
    omega
  refine ⟨hle, hdup, fun h0 => ?_, fun hnil => ?_⟩
  · unfold dup_rate
    rw [if_neg h0, hdup]
    push_cast
    ring
  · subst hnil
    exact ⟨rfl, rfl, rfl, rfl⟩

/-- Witness for C5 at a three-row corpus with one duplicated signature:
three email-like rows, two unique signatures, one duplicate, and the rate
given by the stated formula. -/
theorem census_duplicate_accounting_witness :
    (processRows c5Corpus).email_like ≠ 0 ∧
    (processRows c5Corpus).email_like = 3 ∧
    unique_emails (processRows c5Corpus) = 2 ∧
    dup_rate (processRows c5Corpus) =
      (((processRows c5Corpus).email_like : ℚ) - (unique_emails (processRows c5Corpus) : ℚ)) /
        ((processRows c5Corpus).email_like : ℚ) * 100 :=
  ⟨by decide, by decide, by decide,
   (census_duplicate_accounting c5Corpus).2.2.1 (by decide)⟩

/-- The head surviving a dropWhile fails the predicate. -/
theorem head?_dropWhile_not (p : Char → Bool) (l : List Char) :
    ∀ c, (l.dropWhile p).head? = some c → p c = false := by
  induction l with
  | nil => intro c h; simp [List.dropWhile] at h
  | cons a t ih =>
    intro c h
    rw [List.dropWhile_cons] at h
    split at h
    · exact ih c h
    · next hpa =>
      simp only [List.head?_cons, Option.some.injEq] at h
      subst h
      simpa using hpa

/-- A list whose head fails the predicate is unchanged by dropWhile. -/
theorem dropWhile_eq_self_of_head (p : Char → Bool) (l : List Char)
    (h : ∀ c, l.head? = some c → p c = false) : l.dropWhile p = l := by
  cases l with
  | nil => rfl
  | cons a t =>
    have ha := h a rfl
    rw [List.dropWhile_cons]
    simp [ha]

/-- A non-empty suffix shares the last element of the whole list. -/
theorem getLast?_of_suffix {l' l : List Char} (h : l' <:+ l) (hne : l' ≠ []) :
    l'.getLast? = l.getLast? := by
  obtain ⟨t, rfl⟩ := h
  rw [List.getLast?_append_of_ne_nil _ hne]

/-- The head of a stripped list is not whitespace. -/
theorem pyStrip_head_not (l : List Char) :
    ∀ c, (pyStrip l).head? = some c → isPySpace c = false := by
  intro c h
  unfold pyStrip at h
  rw [List.head?_reverse] at h
  have hvne : (l.dropWhile isPySpace).reverse.dropWhile isPySpace ≠ [] := by
    intro hv0
    rw [hv0] at h
    simp at h
  have hsuf := List.dropWhile_suffix (l := (l.dropWhile isPySpace).reverse) isPySpace
  rw [getLast?_of_suffix hsuf hvne, List.getLast?_reverse] at h
  exact head?_dropWhile_not _ _ c h

/-- The last element of a stripped list is not whitespace. -/
theorem pyStrip_getLast_not (l : List Char) :
    ∀ c, (pyStrip l).getLast? = some c → isPySpace c = false := by
  intro c h
  unfold pyStrip at h
  rw [List.getLast?_reverse] at h
  exact head?_dropWhile_not _ _ c h

/-- A list with no whitespace at either end is unchanged by stripping. -/
theorem pyStrip_eq_self (l : List Char)
    (h1 : ∀ c, l.head? = some c → isPySpace c = false)
    (h2 : ∀ c, l.getLast? = some c → isPySpace c = false) : pyStrip l = l := by
  unfold pyStrip
  rw [dropWhile_eq_self_of_head _ _ h1]
  rw [dropWhile_eq_self_of_head _ _ (fun c hc => h2 c (by rwa [List.head?_reverse] at hc))]
  exact List.reverse_reverse l

/-- Stripping is idempotent. -/
theorem pyStrip_idem (l : List Char) : pyStrip (pyStrip l) = pyStrip l :=
  pyStrip_eq_self _ (pyStrip_head_not l) (pyStrip_getLast_not l)

/-- Stripping only removes elements. -/
theorem mem_pyStrip {c : Char} {l : List Char} (h : c ∈ pyStrip l) : c ∈ l := by
  unfold pyStrip at h
  rw [List.mem_reverse] at h
  have h2 := (List.dropWhile_suffix _).subset h
  rw [List.mem_reverse] at h2
  exact (List.dropWhile_suffix _).subset h2

/-- Collapsing spaces keeps the head of a non-empty list. -/
theorem collapse_head (l : List Char) (h : l ≠ []) :
    (collapseSpaces l).head? = l.head? := by
  induction l using collapseSpaces.induct with
  | case1 => exact absurd rfl h
  | case2 c => rfl
  | case3 a b t hcond ih =>
    obtain ⟨ha, hb⟩ := hcond
    simp only [collapseSpaces, if_pos (And.intro ha hb)]
    rw [ih (by simp)]
    subst ha hb
    rfl
  | case4 a b t hcond ih =>
    simp only [collapseSpaces, if_neg hcond]
    rfl

/-- The collapsed list never carries two adjacent spaces. -/
theorem collapse_chain (l : List Char) : NoDub (collapseSpaces l) := by
  induction l using collapseSpaces.induct with
  | case1 => simp [collapseSpaces, NoDub]
  | case2 c => simp [collapseSpaces, NoDub]
  | case3 a b t hcond ih =>
    simpa only [collapseSpaces, if_pos hcond] using ih
  | case4 a b t hcond ih =>
    simp only [collapseSpaces, if_neg hcond]
    rw [NoDub, List.chain'_cons']
    refine ⟨fun y hy => ?_, ih⟩
    rw [collapse_head (b :: t) (by simp)] at hy
    simp only [List.head?_cons, Option.mem_def, Option.some.injEq] at hy
    subst hy
    exact hcond

/-- A list without adjacent spaces is unchanged by collapsing. -/
theorem collapse_eq_self : ∀ {l : List Char}, NoDub l → collapseSpaces l = l := by
  intro l
  induction l using collapseSpaces.induct with
  | case1 => intro _; rfl
  | case2 c => intro _; rfl
  | case3 a b t hcond ih =>
    intro h
    rw [NoDub, List.chain'_cons] at h
    exact absurd hcond h.1
  | case4 a b t hcond ih =>
    intro h
    rw [NoDub, List.chain'_cons] at h
    simp only [collapseSpaces, if_neg hcond]
    rw [ih h.2]

/-- Collapsing only removes elements. -/
theorem mem_collapse : ∀ {c : Char} {l : List Char}, c ∈ collapseSpaces l → c ∈ l := by
  intro c l
  induction l using collapseSpaces.induct with
  | case1 => intro h; simp [collapseSpaces] at h
  | case2 d => intro h; exact h
  | case3 a b t hcond ih =>
    intro h
    rw [collapseSpaces, if_pos hcond] at h
    exact List.mem_cons_of_mem a (ih h)
  | case4 a b t hcond ih =>
    intro h
    rw [collapseSpaces, if_neg hcond] at h
    rcases List.mem_cons.mp h with h1 | h2
    · exact h1 ▸ List.mem_cons_self a (b :: t)
    · exact List.mem_cons_of_mem a (ih h2)

/-- Stripping preserves the absence of adjacent spaces. -/
theorem nodub_pyStrip {l : List Char} (h : NoDub l) : NoDub (pyStrip l) := by
  unfold pyStrip
  have h1 : NoDub (l.dropWhile isPySpace) := h.suffix (List.dropWhile_suffix _)
  have h2 : NoDub (l.dropWhile isPySpace).reverse := by
    rw [NoDub, List.chain'_reverse]
    exact h1.imp (fun a b hab hba => hab ⟨hba.2, hba.1⟩)
  have h3 : NoDub ((l.dropWhile isPySpace).reverse.dropWhile isPySpace) :=
    h2.suffix (List.dropWhile_suffix _)
  rw [NoDub, List.chain'_reverse]
  exact h3.imp (fun a b hab hba => hab ⟨hba.2, hba.1⟩)

/-- Lower-casing fixes characters that are already lowercase or digits. -/
theorem asciiLower_fix {c : Char} (h : isLowerAlnum c = true) : asciiLower c = c := by
  simp only [isLowerAlnum, decide_eq_true_eq] at h
  unfold asciiLower
  rw [if_neg (by omega)]

/-- The character step of the normalizer is idempotent. -/
theorem scrub_idem (c : Char) : scrub (scrub c) = scrub c := by
  by_cases h : isLowerAlnum (asciiLower c) = true
  · have h1 : scrub c = asciiLower c := by unfold scrub; rw [if_pos h]
    rw [h1]
    unfold scrub
    rw [asciiLower_fix h, if_pos h]
  · have h1 : scrub c = ' ' := by unfold scrub; rw [if_neg h]
    rw [h1]
    decide

/-- Every character of a scrubbed list is a fixed point of the step. -/
theorem scrub_out_fix {c : Char} {l : List Char} (h : c ∈ l.map scrub) : scrub c = c := by
  rw [List.mem_map] at h
  obtain ⟨a, _, rfl⟩ := h
  exact scrub_idem a

/-- Every character of a normalizer output is a fixed point of the step. -/
theorem norm_out_mem {c : Char} {x : List Char}
    (h : c ∈ pyStrip (collapseSpaces (x.map scrub))) : scrub c = c :=
  scrub_out_fix (mem_collapse (mem_pyStrip h))

/-- The text normalizer is idempotent. -/
theorem normalize_text_idem (s : String) :
    normalize_text (normalize_text s) = normalize_text s := by
  unfold normalize_text
  have hdata : (String.mk (pyStrip (collapseSpaces (s.data.map scrub)))).data =
      pyStrip (collapseSpaces (s.data.map scrub)) := rfl
  rw [hdata]
  have hfix : ∀ a ∈ pyStrip (collapseSpaces (s.data.map scrub)), scrub a = a :=
    fun a ha => norm_out_mem ha
  have h1 : (pyStrip (collapseSpaces (s.data.map scrub))).map scrub =
      pyStrip (collapseSpaces (s.data.map scrub)) := by
    conv_rhs => rw [← List.map_id (pyStrip (collapseSpaces (s.data.map scrub)))]
    exact List.map_congr_left hfix
  rw [h1]
  rw [collapse_eq_self (nodub_pyStrip (collapse_chain (s.data.map scrub)))]
  rw [pyStrip_idem]

/-- C8: the text normalizer is idempotent and total: both concrete anchor
values hold and a second application never changes the result. -/
theorem normalize_idempotent_total :
    normalize_text "" = "" ∧ normalize_text "ACT NOW!!" = "act now" ∧
    ∀ x : String, normalize_text (normalize_text x) = normalize_text x :=
  ⟨by decide, by decide, normalize_text_idem⟩

/-- Lookup of a mapped association list with distinct keys finds the image
of the unique entry carrying the key. -/
theorem assocFind_map_eq {β : Type} (l : List (String × List String))
    (f : String × List String → β) (cat : String) (ps : List String)
    (hnd : (l.map Prod.fst).Nodup) (hm : (cat, ps) ∈ l) :
    assocFind cat (l.map (fun cp => (cp.1, f cp))) = some (f (cat, ps)) := by
  induction l with
  | nil => simp at hm
  | cons kv t ih =>
    simp only [List.map_cons, List.nodup_cons] at hnd
    rw [List.map_cons]
    simp only [assocFind]
    by_cases hk : kv.1 = cat
    · rw [if_pos hk]
      rcases List.mem_cons.mp hm with h1 | h2
      · rw [← h1]
      · exfalso
        apply hnd.1
        rw [hk]
        exact List.mem_map.mpr ⟨(cat, ps), h2, rfl⟩
    · rw [if_neg hk]
      apply ih hnd.2
      rcases List.mem_cons.mp hm with h1 | h2
      · exact absurd (by rw [← h1]) hk
      · exact h2

/-- A keyed filterMap holds no entry for an absent phrase. -/
theorem assocFind_keyed_none (g : String → Nat) (phrase : String) :
    ∀ ps : List String, phrase ∉ ps →
      assocFind phrase (ps.filterMap (fun p => if 0 < g p then some (p, g p) else none)) =
        none := by
  intro ps
  induction ps with
  | nil => intro _; rfl
  | cons p rest ih =>
    intro hnm
    have hne : ¬(p = phrase) := fun he => hnm (he ▸ List.mem_cons_self p rest)
    have hrest : phrase ∉ rest := fun hm => hnm (List.mem_cons_of_mem _ hm)
    rw [List.filterMap_cons]
    by_cases hc : 0 < g p
    · rw [if_pos hc]
      simp only [assocFind]
      rw [if_neg hne]
      exact ih hrest
    · rw [if_neg hc]
      exact ih hrest

/-- Reading a keyed filterMap with default zero recovers the count of any
phrase of a duplicate-free list, whether or not the entry was kept. -/
theorem assocFind_keyed (g : String → Nat) (phrase : String) :
    ∀ ps : List String, ps.Nodup → phrase ∈ ps →
      (assocFind phrase
        (ps.filterMap (fun p => if 0 < g p then some (p, g p) else none))).getD 0 =
        g phrase := by
  intro ps
  induction ps with
  | nil => intro _ hm; simp at hm
  | cons p rest ih =>
    intro hnd hm
    rw [List.nodup_cons] at hnd
    rw [List.filterMap_cons]
    by_cases hp : p = phrase
    · subst hp
      by_cases hc : 0 < g p
      · rw [if_pos hc]
        simp [assocFind]
      · rw [if_neg hc]
        rw [assocFind_keyed_none g p rest hnd.1]
        simp only [Option.getD_none]
        omega
    · have hm2 : phrase ∈ rest := by
        rcases List.mem_cons.mp hm with h1 | h2
        · exact absurd h1.symm hp
        · exact h2
      by_cases hc : 0 < g p
      · rw [if_pos hc]
        simp only [assocFind]
        rw [if_neg hp]
        exact ih hnd.2 hm2
      · rw [if_neg hc]
        exact ih hnd.2 hm2

/-- The category names of the lexicon are pairwise distinct. -/
theorem lex_keys_nodup : (CUE_LEXICON.map Prod.fst).Nodup := by decide

/-- The phrases inside each lexicon category are pairwise distinct. -/
theorem lex_phrases_nodup : ∀ cp ∈ CUE_LEXICON, (cp.2).Nodup := by decide

/-- C1 (amended): the cue detector is single-pass: for every text and every
lexicon phrase, the per-phrase count reported by detect_cues equals the
number of non-overlapping matches of the compiled pattern in the given
text alone; the raw-plus-normalized dual-pass merge is performed only by
the detect_with_extras wrapper of src/images.py (and the cue_totals
wrapper of src/urlscan.py), not by detect_cues or by the single-pass
detect_with_extras of src/nazario.py. -/
theorem detect_cues_single_pass (t : String) (cat phrase : String)
    (h : lexHas cat phrase = true) :
    phraseCount (detect_cues t) cat phrase = countMatches phrase t := by
  simp only [lexHas, List.any_eq_true, Bool.and_eq_true, decide_eq_true_eq] at h
  obtain ⟨cp, hmem, hcat, p, hpmem, hpeq⟩ := h
  subst hcat
  subst hpeq
  have h1 : assocFind cp.1 (detect_cues t) =
      some (cp.2.filterMap
        (fun q => if 0 < countMatches q t then some (q, countMatches q t) else none)) :=
    assocFind_map_eq CUE_LEXICON
      (fun x => x.2.filterMap
        (fun q => if 0 < countMatches q t then some (q, countMatches q t) else none))
      cp.1 cp.2 lex_keys_nodup hmem
  unfold phraseCount
  rw [h1]
  exact assocFind_keyed (fun q => countMatches q t) p cp.2 (lex_phrases_nodup cp hmem) hpmem

/-- Witness for the amended C1 at the urgency phrase act now and the text
ACT NOW with two exclamation marks: the reported count is the single-pass
count. -/
theorem detect_cues_single_pass_witness :
    lexHas "urgency" "act now" = true ∧
    phraseCount (detect_cues "ACT NOW!!") "urgency" "act now" =
      countMatches "act now" "ACT NOW!!" :=
  ⟨by decide, detect_cues_single_pass "ACT NOW!!" "urgency" "act now" (by decide)⟩
